import Mathlib

/-!
Verification development for the markupai/content-guardian-action batch
dispatcher: a shallow embedding of src/utils/error-utils.ts and
src/services/api-service.ts, with theorems about the error classifier,
the retry executor, the backoff calculator and the batch orchestrator.

Modelling conventions:
* JavaScript numbers used as durations and multipliers are modelled as
  rationals; status codes as integers.
* A JavaScript Error object is modelled by the structure ApiErrorV; the
  field tag is an identity token distinguishing distinct objects that
  carry the same data, so propagation of the same object is expressible.
* Asynchronous operations are modelled by explicit outcome parameters
  (the settled result an external call delivers) and by event traces.
* Log emission is modelled as a list of LogEvent values carrying the
  message text (emoji prefixes of the source are dropped).
-/

namespace ContentGuardian

/-- Machine-readable error-type tags of the toolkit ErrorType enum
(the subset relevant to classification plus ordinary representatives). -/
inductive ErrorTypeV where
  | unauthorized_error
  | internal_server_error
  | validation_error
  | not_found_error
  | timeout_error
  | unknown_error
deriving DecidableEq, Repr

/-- Model of a JavaScript Error as seen by the classifier:
message, optional structured type tag, optional numeric status code,
and an identity token. -/
structure ApiErrorV where
  message : String
  type : Option ErrorTypeV
  statusCode : Option Int
  tag : Nat
deriving DecidableEq, Repr

/-- Embedding of isRequestEndingError from src/utils/error-utils.ts:
returns false on a missing error; otherwise true when the type tag is
UNAUTHORIZED_ERROR or INTERNAL_SERVER_ERROR, or the status code is a
number equal to 401 or at least 500. Total by construction, so the
classifier never throws. -/
def isRequestEndingError : Option ApiErrorV → Bool
  | none => false
  | some e =>
      let typeIsEnding :=
        decide (e.type = some ErrorTypeV.unauthorized_error)
          || decide (e.type = some ErrorTypeV.internal_server_error)
      let statusCodeIsEnding :=
        match e.statusCode with
        | some c => decide (c = 401) || decide (500 ≤ c)
        | none => false
      typeIsEnding || statusCodeIsEnding

/-- Status of one job inside the toolkit batch progress record. -/
inductive JobStatus where
  | pending
  | inProgress
  | completed
  | failed
deriving DecidableEq, Repr

/-- Model of the score payload carried by a successful style check;
its contents are opaque to the dispatcher, so a single token field
stands for the whole numeric record. -/
structure StyleScores where
  payload : Nat
deriving DecidableEq, Repr

/-- Model of a successful styleCheck response, reduced to the part the
orchestrator reads: result.original.scores. -/
structure StyleCheckResp where
  scores : StyleScores
deriving DecidableEq, Repr

/-- Embedding of the toolkit BatchResult record. -/
structure BatchResult where
  index : Nat
  status : JobStatus
  result : Option StyleCheckResp
  error : Option ApiErrorV
deriving DecidableEq, Repr

/-- Embedding of the toolkit BatchProgress record (fields the
orchestrator reads). -/
structure BatchProgress where
  total : Nat
  completed : Nat
  failed : Nat
  results : List BatchResult
deriving DecidableEq, Repr

/-- Return value of checkForRequestEndingError. -/
structure CheckResult where
  found : Bool
  error : Option ApiErrorV
deriving DecidableEq, Repr

/-- Guard of the scan loop in checkForRequestEndingError:
status is failed and the attached error is request ending. -/
def isFatalOutcome (r : BatchResult) : Bool :=
  r.status == JobStatus.failed && isRequestEndingError r.error

/-- The for loop inside checkForRequestEndingError: first outcome in
list order whose status is failed and whose error is request ending. -/
def scanForEndingError : List BatchResult → CheckResult
  | [] => ⟨false, none⟩
  | r :: rest =>
      if isFatalOutcome r then ⟨true, r.error⟩
      else scanForEndingError rest

/-- Embedding of checkForRequestEndingError from
src/utils/error-utils.ts: scans only when the failed count is
positive. -/
def checkForRequestEndingError (failed : Nat) (results : List BatchResult) : CheckResult :=
  if 0 < failed then scanForEndingError results
  else ⟨false, none⟩

lemma scanForEndingError_of_all_not_fatal {l : List BatchResult}
    (h : ∀ r ∈ l, isFatalOutcome r = false) :
    scanForEndingError l = ⟨false, none⟩ := by
  induction l with
  | nil => rfl
  | cons r rest ih =>
      have hr : isFatalOutcome r = false := h r (List.mem_cons_self r rest)
      simp only [scanForEndingError, hr, Bool.false_eq_true, if_false]
      exact ih (fun x hx => h x (List.mem_cons_of_mem r hx))

lemma scanForEndingError_first_fatal {l : List BatchResult} (i : Fin l.length)
    (hi : isFatalOutcome (l.get i) = true)
    (hmin : ∀ j : Fin l.length, (j : Nat) < (i : Nat) → isFatalOutcome (l.get j) = false) :
    scanForEndingError l = ⟨true, (l.get i).error⟩ := by
  induction l with
  | nil => exact absurd i.isLt (by simp)
  | cons r rest ih =>
      cases i using Fin.cases with
      | zero =>
          simp only [List.get] at hi ⊢
          simp [scanForEndingError, hi]
      | succ k =>
          have hr : isFatalOutcome r = false := by
            have := hmin ⟨0, by simp⟩ (by simp)
            simpa using this
          simp only [scanForEndingError, hr, Bool.false_eq_true, if_false]
          have hk : isFatalOutcome (rest.get k) = true := by simpa using hi
          have hkmin : ∀ j : Fin rest.length, (j : Nat) < (k : Nat) →
              isFatalOutcome (rest.get j) = false := by
            intro j hj
            have := hmin
              ⟨(j : Nat) + 1, by simp only [List.length_cons]; exact Nat.succ_lt_succ j.isLt⟩
              (by simp only [Fin.val_mk]; exact Nat.succ_lt_succ hj)
            simpa using this
          simpa using ih k hk hkmin

/-- C3: isRequestEndingError classifies an error as batch ending exactly
when its structured type tag is UNAUTHORIZED_ERROR or
INTERNAL_SERVER_ERROR, or it carries a numeric status code equal to 401
or at least 500; a missing error is never batch ending. The classifier
is a total function, hence never throws. -/
theorem isRequestEndingError_iff (e : ApiErrorV) :
    (isRequestEndingError (some e) = true ↔
      (e.type = some ErrorTypeV.unauthorized_error ∨
        e.type = some ErrorTypeV.internal_server_error ∨
        ∃ c : Int, e.statusCode = some c ∧ (c = 401 ∨ 500 ≤ c))) ∧
    isRequestEndingError none = false := by
  constructor
  · simp only [isRequestEndingError]
    cases hsc : e.statusCode with
    | none =>
        simp only [hsc, Bool.or_false, Bool.or_eq_true, decide_eq_true_eq]
        constructor
        · rintro (h | h)
          · exact Or.inl h
          · exact Or.inr (Or.inl h)
        · rintro (h | h | ⟨c, hc, _⟩)
          · exact Or.inl h
          · exact Or.inr h
          · exact Option.noConfusion hc
    | some c =>
        simp only [hsc, Bool.or_eq_true, decide_eq_true_eq]
        constructor
        · rintro ((h | h) | (h | h))
          · exact Or.inl h
          · exact Or.inr (Or.inl h)
          · exact Or.inr (Or.inr ⟨c, rfl, Or.inl h⟩)
          · exact Or.inr (Or.inr ⟨c, rfl, Or.inr h⟩)
        · rintro (h | h | ⟨d, hd, hor⟩)
          · exact Or.inl (Or.inl h)
          · exact Or.inl (Or.inr h)
          · cases hd
            exact Or.inr (by simpa using hor)
  · rfl

/-- C2: checkForRequestEndingError short circuits to not-found when the
failed count is zero; with a positive failed count it returns the error
of the earliest-indexed failed outcome classified batch ending, and
not-found when no outcome qualifies. -/
theorem checkForRequestEndingError_spec (failed : Nat) (results : List BatchResult) :
    (failed = 0 → checkForRequestEndingError failed results = ⟨false, none⟩) ∧
    (0 < failed →
      ∀ i : Fin results.length,
        isFatalOutcome (results.get i) = true →
        (∀ j : Fin results.length, (j : Nat) < (i : Nat) →
          isFatalOutcome (results.get j) = false) →
        checkForRequestEndingError failed results = ⟨true, (results.get i).error⟩) ∧
    (0 < failed → (∀ r ∈ results, isFatalOutcome r = false) →
      checkForRequestEndingError failed results = ⟨false, none⟩) := by
  refine ⟨fun h => ?_, fun hpos i hi hmin => ?_, fun hpos hall => ?_⟩
  · simp [checkForRequestEndingError, h]
  · simpa [checkForRequestEndingError, hpos] using
      scanForEndingError_first_fatal i hi hmin
  · simpa [checkForRequestEndingError, hpos] using
      scanForEndingError_of_all_not_fatal hall

/-- Closed instantiation of the C2 theorem at concrete inputs, matching
the spec example: ordinary failure at a lower index, 401 failure next,
500 failure last; the 401 failure wins. -/
theorem checkForRequestEndingError_spec_witness :
    checkForRequestEndingError 3
      [⟨0, JobStatus.failed, none, some ⟨"bad input", some ErrorTypeV.validation_error, some 422, 1⟩⟩,
       ⟨1, JobStatus.failed, none, some ⟨"auth", none, some 401, 2⟩⟩,
       ⟨2, JobStatus.failed, none, some ⟨"server", none, some 500, 3⟩⟩] =
      ⟨true, some ⟨"auth", none, some 401, 2⟩⟩ ∧
    checkForRequestEndingError 0
      [⟨0, JobStatus.failed, none, some ⟨"auth", none, some 401, 2⟩⟩] = ⟨false, none⟩ := by
  constructor
  · exact (checkForRequestEndingError_spec 3 _).2.1 (by decide) ⟨1, by decide⟩
      (by decide) (by decide)
  · exact (checkForRequestEndingError_spec 0 _).1 rfl

/-- Closed instantiation of the C3 theorem: a 503 status code is batch
ending, and the missing-error case is not. -/
theorem isRequestEndingError_iff_witness :
    isRequestEndingError (some ⟨"s", none, some 503, 0⟩) = true ∧
    isRequestEndingError none = false := by
  refine ⟨?_, (isRequestEndingError_iff ⟨"s", none, some 503, 0⟩).2⟩
  exact (isRequestEndingError_iff ⟨"s", none, some 503, 0⟩).1.mpr
    (Or.inr (Or.inr ⟨503, rfl, Or.inr (by norm_num)⟩))

/-- Embedding of the RetryConfig record from src/utils/error-utils.ts;
durations and the multiplier are modelled as rationals. -/
structure RetryConfig where
  maxRetries : Nat
  baseDelay : ℚ
  maxDelay : ℚ
  backoffMultiplier : ℚ
deriving DecidableEq, Repr

/-- Embedding of DEFAULT_RETRY_CONFIG. -/
def DEFAULT_RETRY_CONFIG : RetryConfig := ⟨3, 1000, 10000, 2⟩

/-- Embedding of calculateBackoffDelay: exponential backoff from the
base delay, clamped to the configured maximum. -/
def calculateBackoffDelay (attempt : Nat) (config : RetryConfig) : ℚ :=
  min (config.baseDelay * config.backoffMultiplier ^ (attempt - 1)) config.maxDelay

/-- A value thrown by a JavaScript operation: either an Error object or
a non-Error value carried by its string form. -/
inductive Thrown where
  | err (e : ApiErrorV)
  | nonError (s : String)
deriving DecidableEq, Repr

/-- The normalization in withRetry: an Error instance is kept as is, a
non-Error thrown value becomes a fresh Error whose message is the
string form of the value. -/
def normalizeThrown : Thrown → ApiErrorV
  | .err e => e
  | .nonError s => ⟨s, none, none, 0⟩

/-- Message of the value the operation threw. -/
def thrownMessage : Thrown → String
  | .err e => e.message
  | .nonError s => s

/-- Observable outcome of one withRetry run: final result, number of
operation calls, backoff delays performed in order, retry-warning
messages (the message of the normalized error logged before each
retry), and the message of the final failure log when all attempts
fail. -/
structure RetryOutcome (α : Type) where
  result : Except ApiErrorV α
  calls : Nat
  delays : List ℚ
  warns : List String
  finalErrorLog : Option String

/-- The for loop of withRetry, with fuel counting the remaining
iterations; op k is the outcome the operation delivers on its k-th
invocation. -/
def withRetryLoop {α : Type} (op : Nat → Except Thrown α) (config : RetryConfig)
    (operationName : String) : Nat → Nat → RetryOutcome α
  | 0, _ =>
      ⟨Except.error ⟨operationName ++ " failed", none, none, 0⟩, 0, [], [], none⟩
  | fuel + 1, attempt =>
      match op attempt with
      | Except.ok v => ⟨Except.ok v, 1, [], [], none⟩
      | Except.error t =>
          if attempt = config.maxRetries then
            ⟨Except.error (normalizeThrown t), 1, [], [],
              some (normalizeThrown t).message⟩
          else
            ⟨(withRetryLoop op config operationName fuel (attempt + 1)).result,
              (withRetryLoop op config operationName fuel (attempt + 1)).calls + 1,
              calculateBackoffDelay attempt config ::
                (withRetryLoop op config operationName fuel (attempt + 1)).delays,
              (normalizeThrown t).message ::
                (withRetryLoop op config operationName fuel (attempt + 1)).warns,
              (withRetryLoop op config operationName fuel (attempt + 1)).finalErrorLog⟩

/-- Embedding of withRetry from src/utils/error-utils.ts: attempts run
from 1 to maxRetries; the fall-through after the loop, reached only
when maxRetries is zero, throws a fresh generic error as in the
source. -/
def withRetry {α : Type} (op : Nat → Except Thrown α) (config : RetryConfig)
    (operationName : String) : RetryOutcome α :=
  withRetryLoop op config operationName config.maxRetries 1

/-- C5: the backoff delay for attempt k equals the capped exponential
formula (definitionally, as calculateBackoffDelay is a pure function of
its arguments) and is monotonically non-decreasing in k. -/
theorem calculateBackoffDelay_spec (P : RetryConfig) (k : Nat)
    (hmax : 1 ≤ P.maxRetries) (hbase : 0 < P.baseDelay)
    (hcap : P.baseDelay ≤ P.maxDelay) (hmult : 1 < P.backoffMultiplier)
    (hk : 1 ≤ k) :
    calculateBackoffDelay k P =
      min (P.baseDelay * P.backoffMultiplier ^ (k - 1)) P.maxDelay ∧
    calculateBackoffDelay k P ≤ calculateBackoffDelay (k + 1) P := by
  refine ⟨rfl, ?_⟩
  unfold calculateBackoffDelay
  refine min_le_min ?_ le_rfl
  have h1 : (1 : ℚ) ≤ P.backoffMultiplier := le_of_lt hmult
  have hpow : P.backoffMultiplier ^ (k - 1) ≤ P.backoffMultiplier ^ (k + 1 - 1) :=
    pow_le_pow_right₀ h1 (by omega)
  exact mul_le_mul_of_nonneg_left hpow (le_of_lt hbase)

/-- Closed instantiation of the C5 theorem at the default retry
configuration and attempt 2. -/
theorem calculateBackoffDelay_spec_witness :
    calculateBackoffDelay 2 ⟨3, 1000, 10000, 2⟩ =
      min ((1000 : ℚ) * 2 ^ (2 - 1)) 10000 ∧
    calculateBackoffDelay 2 ⟨3, 1000, 10000, 2⟩ ≤
      calculateBackoffDelay 3 ⟨3, 1000, 10000, 2⟩ :=
  calculateBackoffDelay_spec ⟨3, 1000, 10000, 2⟩ 2 (by norm_num) (by norm_num)
    (by norm_num) (by norm_num) (by norm_num)

lemma withRetryLoop_all_fail {α : Type} (op : Nat → Except Thrown α)
    (config : RetryConfig) (name : String) (ts : Nat → Thrown)
    (hfail : ∀ k, 1 ≤ k → k ≤ config.maxRetries → op k = Except.error (ts k)) :
    ∀ fuel attempt, attempt + fuel = config.maxRetries + 1 → 1 ≤ attempt → 1 ≤ fuel →
      (withRetryLoop op config name fuel attempt).calls = fuel ∧
      (withRetryLoop op config name fuel attempt).result =
        Except.error (normalizeThrown (ts config.maxRetries)) := by
  intro fuel
  induction fuel with
  | zero => intro attempt _ _ h; omega
  | succ n ih =>
      intro attempt hsum h1 _
      have hle : attempt ≤ config.maxRetries := by omega
      have hop : op attempt = Except.error (ts attempt) := hfail attempt h1 hle
      by_cases hend : attempt = config.maxRetries
      · have hn : n = 0 := by omega
        subst hn
        subst hend
        simp [withRetryLoop, hop]
      · have hn1 : 1 ≤ n := by omega
        have hrec := ih (attempt + 1) (by omega) (by omega) hn1
        simp only [withRetryLoop, hop, if_neg hend]
        exact ⟨by simp [hrec.1], hrec.2⟩

/-- C6: when the operation fails on every attempt, withRetry calls it
exactly maxRetries times, propagates the normalized last failure (the
very same Error object when the thrown value is an Error instance, as
the last conjunct states), and the propagated message equals the last
failure message. -/
theorem withRetry_all_fail {α : Type} (op : Nat → Except Thrown α)
    (config : RetryConfig) (name : String) (ts : Nat → Thrown)
    (hmax : 1 ≤ config.maxRetries)
    (hfail : ∀ k, 1 ≤ k → k ≤ config.maxRetries → op k = Except.error (ts k)) :
    (withRetry op config name).calls = config.maxRetries ∧
    (withRetry op config name).result =
      Except.error (normalizeThrown (ts config.maxRetries)) ∧
    (normalizeThrown (ts config.maxRetries)).message =
      thrownMessage (ts config.maxRetries) ∧
    (∀ e, ts config.maxRetries = Thrown.err e →
      (withRetry op config name).result = Except.error e) := by
  have h := withRetryLoop_all_fail op config name ts hfail config.maxRetries 1
    (by omega) le_rfl hmax
  refine ⟨h.1, h.2, ?_, ?_⟩
  · cases ts config.maxRetries <;> rfl
  · intro e he
    unfold withRetry
    rw [h.2, he]
    rfl

/-- Closed instantiation of the C6 theorem: an operation failing twice
under a two-attempt configuration. -/
theorem withRetry_all_fail_witness :
    (withRetry
        (fun _ => (Except.error (Thrown.err ⟨"boom", none, some 500, 7⟩) :
          Except Thrown Nat)) ⟨2, 1, 10, 2⟩ "op").calls = 2 ∧
    (withRetry
        (fun _ => (Except.error (Thrown.err ⟨"boom", none, some 500, 7⟩) :
          Except Thrown Nat)) ⟨2, 1, 10, 2⟩ "op").result =
      Except.error ⟨"boom", none, some 500, 7⟩ := by
  have h := withRetry_all_fail
    (fun _ => (Except.error (Thrown.err ⟨"boom", none, some 500, 7⟩) :
      Except Thrown Nat))
    ⟨2, 1, 10, 2⟩ "op" (fun _ => Thrown.err ⟨"boom", none, some 500, 7⟩)
    (by decide) (fun _ _ _ => rfl)
  exact ⟨h.1, h.2.1⟩

lemma withRetryLoop_success {α : Type} (op : Nat → Except Thrown α)
    (config : RetryConfig) (name : String) (ts : Nat → Thrown) (m : Nat) (v : α)
    (hmmax : m ≤ config.maxRetries)
    (hfail : ∀ k, 1 ≤ k → k < m → op k = Except.error (ts k))
    (hok : op m = Except.ok v) :
    ∀ fuel attempt, attempt + fuel = config.maxRetries + 1 → 1 ≤ attempt → attempt ≤ m →
      withRetryLoop op config name fuel attempt =
        ⟨Except.ok v, m - attempt + 1,
          (List.range' attempt (m - attempt)).map
            (fun k => calculateBackoffDelay k config),
          (List.range' attempt (m - attempt)).map
            (fun k => (normalizeThrown (ts k)).message),
          none⟩ := by
  intro fuel
  induction fuel with
  | zero => intro attempt hsum h1 hm; omega
  | succ n ih =>
      intro attempt hsum h1 hm
      by_cases heq : attempt = m
      · subst heq
        simp [withRetryLoop, hok, Nat.sub_self]
      · have hlt : attempt < m := lt_of_le_of_ne hm heq
        have hop : op attempt = Except.error (ts attempt) := hfail attempt h1 hlt
        have hne : attempt ≠ config.maxRetries := by omega
        have hrec := ih (attempt + 1) (by omega) (by omega) (by omega)
        simp only [withRetryLoop, hop, if_neg hne, hrec]
        have hr : m - attempt = (m - (attempt + 1)) + 1 := by omega
        rw [hr, List.range'_succ]
        simp

/-- C7: when the operation first succeeds on attempt m ≤ maxRetries,
withRetry calls it exactly m times, returns the success value, performs
backoff delays only for the m-1 failed attempts (so no delay follows
the final, successful call), each retry warning logs the message of
the normalized thrown value, and a non-Error thrown value normalizes
to an Error carrying its string form. -/
theorem withRetry_success {α : Type} (op : Nat → Except Thrown α)
    (config : RetryConfig) (name : String) (ts : Nat → Thrown) (m : Nat) (v : α)
    (hm1 : 1 ≤ m) (hmmax : m ≤ config.maxRetries)
    (hfail : ∀ k, 1 ≤ k → k < m → op k = Except.error (ts k))
    (hok : op m = Except.ok v) :
    (withRetry op config name).calls = m ∧
    (withRetry op config name).result = Except.ok v ∧
    (withRetry op config name).delays =
      (List.range' 1 (m - 1)).map (fun k => calculateBackoffDelay k config) ∧
    (withRetry op config name).delays.length = m - 1 ∧
    (withRetry op config name).warns =
      (List.range' 1 (m - 1)).map (fun k => (normalizeThrown (ts k)).message) ∧
    (∀ s, normalizeThrown (Thrown.nonError s) = ⟨s, none, none, 0⟩) := by
  have h := withRetryLoop_success op config name ts m v hmmax hfail hok
    config.maxRetries 1 (by omega) le_rfl hm1
  unfold withRetry
  rw [h]
  exact ⟨by show m - 1 + 1 = m; omega, rfl, rfl, by simp, rfl, fun s => rfl⟩

/-- Closed instantiation of the C7 theorem: first attempt throws a
non-Error value, second attempt succeeds; two calls, one warning
carrying the string form of the thrown value. -/
theorem withRetry_success_witness :
    (withRetry
        (fun k => if k = 1 then (Except.error (Thrown.nonError "42") :
          Except Thrown Nat) else Except.ok 5) ⟨3, 1000, 10000, 2⟩ "op").calls = 2 ∧
    (withRetry
        (fun k => if k = 1 then (Except.error (Thrown.nonError "42") :
          Except Thrown Nat) else Except.ok 5) ⟨3, 1000, 10000, 2⟩ "op").result =
      Except.ok 5 ∧
    (withRetry
        (fun k => if k = 1 then (Except.error (Thrown.nonError "42") :
          Except Thrown Nat) else Except.ok 5) ⟨3, 1000, 10000, 2⟩ "op").warns =
      ["42"] := by
  have h := withRetry_success
    (fun k => if k = 1 then (Except.error (Thrown.nonError "42") :
      Except Thrown Nat) else Except.ok 5)
    ⟨3, 1000, 10000, 2⟩ "op" (fun _ => Thrown.nonError "42") 2 5
    (by decide) (by decide)
    (fun k hk1 hk2 => by
      have hk : k = 1 := by omega
      subst hk
      rfl)
    rfl
  refine ⟨h.1, h.2.1, ?_⟩
  rw [h.2.2.2.2.1]
  rfl

/-- One filePath-content pair produced by the batch file reading phase
(processFileReading). -/
structure FileContent where
  filePath : String
  content : String
deriving DecidableEq, Repr

/-- A log event emitted through the actions logger. -/
inductive LogEvent where
  | info (msg : String)
  | warn (msg : String)
  | err (msg : String)
deriving DecidableEq, Repr

/-- External calls the analysis functions make, recorded as a trace:
reading one file, one single-file styleCheck call, the batch file
reading phase, and one styleBatchCheckRequests dispatch. -/
inductive CallEvent where
  | readFile (f : String)
  | singleCheck (f : String)
  | readPhase (files : List String)
  | batchCall (requests : Nat)
deriving DecidableEq, Repr

/-- Analysis options passed to the services. -/
structure AnalysisOptions where
  dialect : String
  styleGuide : String
  tone : Option String
deriving DecidableEq, Repr

/-- Embedding of getFileBasename (path.basename), modelled as the last
slash-separated component of the path. -/
def getFileBasename (filePath : String) : String :=
  ((filePath.splitOn "/").getLast?).getD filePath

/-- Embedding of the StyleAnalysisReq record built per file. -/
structure StyleAnalysisReq where
  content : String
  dialect : String
  style_guide : String
  documentNameWithExtension : String
  tone : Option String
deriving DecidableEq, Repr

/-- The request construction shared by analyzeFile and
analyzeFilesBatch. -/
def buildRequest (options : AnalysisOptions) (filePath content : String) :
    StyleAnalysisReq :=
  ⟨content, options.dialect, options.styleGuide, getFileBasename filePath, options.tone⟩

/-- Result record produced per successfully analyzed file. -/
structure AnalysisResult where
  filePath : String
  result : StyleScores
  timestamp : String
deriving DecidableEq, Repr

/-- Embedding of analyzeFile: runs one style check; an ordinary failure
is swallowed (null result), a request-ending failure is rethrown. The
styleCheck argument is the outcome the remote call delivers; now stands
for the current timestamp. -/
def analyzeFile (filePath content : String) (options : AnalysisOptions)
    (styleCheck : StyleAnalysisReq → Except ApiErrorV StyleCheckResp)
    (now : String) : Except ApiErrorV (Option AnalysisResult) :=
  match styleCheck (buildRequest options filePath content) with
  | Except.ok resp => Except.ok (some ⟨filePath, resp.scores, now⟩)
  | Except.error e =>
      if isRequestEndingError (some e) then Except.error e
      else Except.ok none

/-- File path at an index of the read file contents. The toolkit keeps
result indices aligned with the request list, so the default is never
reached under the alignment implicit in the run model. -/
def filePathAt (fileContents : List FileContent) (index : Nat) : String :=
  ((fileContents.get? index).map FileContent.filePath).getD ""

/-- The message logged for a failed batch outcome: the error message,
or the unknown-error fallback when the error or its message is missing
(the source uses a truthiness fallback, so an empty message also falls
back). -/
def failedMessage : Option ApiErrorV → String
  | some e => if e.message = "" then "Unknown error" else e.message
  | none => "Unknown error"

/-- The result-processing loop of analyzeFilesBatch: collects completed
results in index order and logs one error per failed outcome. -/
def processResults (fileContents : List FileContent) (now : String) :
    Nat → List BatchResult → List AnalysisResult × List LogEvent
  | _, [] => ([], [])
  | index, r :: rest =>
      match r.status, r.result with
      | JobStatus.completed, some resp =>
          ((⟨filePathAt fileContents index, resp.scores, now⟩ : AnalysisResult) ::
              (processResults fileContents now (index + 1) rest).1,
            (processResults fileContents now (index + 1) rest).2)
      | JobStatus.failed, _ =>
          ((processResults fileContents now (index + 1) rest).1,
            LogEvent.err ("Failed to analyze " ++ filePathAt fileContents index ++
                ": " ++ failedMessage r.error) ::
              (processResults fileContents now (index + 1) rest).2)
      | _, _ => processResults fileContents now (index + 1) rest

/-- Observable outcome of one analyzeFilesBatch run. -/
structure BatchRun where
  outcome : Except ApiErrorV (List AnalysisResult)
  logs : List LogEvent
  trace : List CallEvent

/-- Embedding of analyzeFilesBatch from src/services/api-service.ts.
The file reading phase (processFileReading, a collaborator outside this
subsystem) is the readBatch argument; finalProgress is the settled
progress the toolkit batch promise delivers; now stands for the current
timestamp. The progress lines of the two-second monitor interval are
timing dependent and are modelled separately (see fatalCheckRuns and
intervalTickCallback). -/
def analyzeFilesBatch (files : List String) (options : AnalysisOptions)
    (readBatch : List String → List FileContent)
    (finalProgress : BatchProgress) (now : String) : BatchRun :=
  if files = [] then ⟨Except.ok [], [], []⟩
  else
    let startLog := LogEvent.info
      ("Starting batch analysis of " ++ toString files.length ++ " files")
    let fileContents := readBatch files
    if fileContents = [] then
      ⟨Except.ok [],
        [startLog, LogEvent.warn "No valid file contents found for analysis"],
        [CallEvent.readPhase files]⟩
    else
      let trace := [CallEvent.readPhase files, CallEvent.batchCall fileContents.length]
      let check := checkForRequestEndingError finalProgress.failed finalProgress.results
      if check.found then
        match check.error with
        | some e =>
            if isRequestEndingError (some e) then
              ⟨Except.error e,
                [startLog, LogEvent.err ("Batch analysis failed: " ++ e.message)],
                trace⟩
            else
              ⟨Except.ok [],
                [startLog, LogEvent.err ("Batch analysis failed: " ++ e.message)],
                trace⟩
        | none =>
            ⟨Except.ok [],
              [startLog, LogEvent.err "Batch analysis failed: null"], trace⟩
      else
        let pr := processResults fileContents now 0 finalProgress.results
        ⟨Except.ok pr.1,
          [startLog] ++ pr.2 ++
            [LogEvent.info ("Batch analysis completed: " ++ toString pr.1.length ++
              "/" ++ toString fileContents.length ++ " files processed successfully")],
          trace⟩

/-- C9: on the empty file list analyzeFilesBatch returns the empty
result list immediately: no read phase, no batch dispatch (hence the
concurrency limiter inside the toolkit is never touched) and no log or
progress event. -/
theorem analyzeFilesBatch_empty (options : AnalysisOptions)
    (readBatch : List String → List FileContent)
    (finalProgress : BatchProgress) (now : String) :
    analyzeFilesBatch [] options readBatch finalProgress now =
      ⟨Except.ok [], [], []⟩ := rfl

lemma scanForEndingError_found {l : List BatchResult} {o : Option ApiErrorV}
    (h : scanForEndingError l = ⟨true, o⟩) : isRequestEndingError o = true := by
  induction l with
  | nil =>
      have := congrArg CheckResult.found h
      simp [scanForEndingError] at this
  | cons r rest ih =>
      by_cases hf : isFatalOutcome r = true
      · have ho : r.error = o := by
          rw [scanForEndingError, if_pos hf] at h
          exact congrArg CheckResult.error h
        have := (Bool.and_eq_true _ _).mp hf
        rw [← ho]
        exact this.2
      · rw [scanForEndingError, if_neg hf] at h
        exact ih h

lemma checkForRequestEndingError_found {f : Nat} {rs : List BatchResult}
    {o : Option ApiErrorV}
    (h : checkForRequestEndingError f rs = ⟨true, o⟩) :
    isRequestEndingError o = true := by
  unfold checkForRequestEndingError at h
  by_cases hf : 0 < f
  · rw [if_pos hf] at h
    exact scanForEndingError_found h
  · rw [if_neg hf] at h
    have := congrArg CheckResult.found h
    simp at this

/-- Guard selecting the error log events. -/
def isErrLog : LogEvent → Bool
  | LogEvent.err _ => true
  | _ => false

lemma processResults_err_logs (fc : List FileContent) (now : String) :
    ∀ rs i, ((processResults fc now i rs).2.countP isErrLog =
        rs.countP (fun r => r.status == JobStatus.failed)) ∧
      (processResults fc now i rs).2.length =
        rs.countP (fun r => r.status == JobStatus.failed) := by
  intro rs
  induction rs with
  | nil => intro i; simp [processResults]
  | cons r rest ih =>
      intro i
      rcases r with ⟨idx, status, result, error⟩
      cases status <;> cases result <;>
        simp [processResults, isErrLog, List.countP_cons, ih (i + 1)]

/-- C1: when the final outcomes contain a fatal failure, the batch call
raises exactly that error object (no partial result list); when no
fatal failure is found, ordinary per-job failures are swallowed: the
call returns a success list and logs one error per failed outcome,
whose results are simply omitted. -/
theorem analyzeFilesBatch_fatal (files : List String) (options : AnalysisOptions)
    (readBatch : List String → List FileContent) (finalProgress : BatchProgress)
    (now : String) (hne : files ≠ []) (hfc : readBatch files ≠ []) :
    (∀ e : ApiErrorV,
      checkForRequestEndingError finalProgress.failed finalProgress.results =
        ⟨true, some e⟩ →
      (analyzeFilesBatch files options readBatch finalProgress now).outcome =
        Except.error e) ∧
    ((checkForRequestEndingError finalProgress.failed finalProgress.results).found =
        false →
      (analyzeFilesBatch files options readBatch finalProgress now).outcome =
        Except.ok (processResults (readBatch files) now 0 finalProgress.results).1 ∧
      (analyzeFilesBatch files options readBatch finalProgress now).logs.countP
          isErrLog =
        finalProgress.results.countP (fun r => r.status == JobStatus.failed)) := by
  constructor
  · intro e h
    have hreq : isRequestEndingError (some e) = true :=
      checkForRequestEndingError_found h
    simp [analyzeFilesBatch, hne, hfc, h, hreq]
  · intro hfound
    have hlogs := processResults_err_logs (readBatch files) now finalProgress.results 0
    constructor
    · simp [analyzeFilesBatch, hne, hfc, hfound]
    · simp [analyzeFilesBatch, hne, hfc, hfound, List.countP_append,
        List.countP_cons, isErrLog, hlogs.1]

/-- Closed instantiation of the C1 theorem: a 401 failure among the
final outcomes is rethrown as is, with its identity token intact. -/
theorem analyzeFilesBatch_fatal_witness :
    (analyzeFilesBatch ["a", "b"] ⟨"d", "g", none⟩
        (fun _ => [⟨"a", "xx"⟩, ⟨"b", "yy"⟩])
        ⟨2, 1, 1,
          [⟨0, JobStatus.completed, some ⟨⟨7⟩⟩, none⟩,
           ⟨1, JobStatus.failed, none,
             some ⟨"auth", some ErrorTypeV.unauthorized_error, some 401, 9⟩⟩]⟩
        "t").outcome =
      Except.error ⟨"auth", some ErrorTypeV.unauthorized_error, some 401, 9⟩ :=
  (analyzeFilesBatch_fatal ["a", "b"] ⟨"d", "g", none⟩
      (fun _ => [⟨"a", "xx"⟩, ⟨"b", "yy"⟩])
      ⟨2, 1, 1,
        [⟨0, JobStatus.completed, some ⟨⟨7⟩⟩, none⟩,
         ⟨1, JobStatus.failed, none,
           some ⟨"auth", some ErrorTypeV.unauthorized_error, some 401, 9⟩⟩]⟩
      "t" (List.cons_ne_nil _ _) (List.cons_ne_nil _ _)).1
    ⟨"auth", some ErrorTypeV.unauthorized_error, some 401, 9⟩ rfl

/-- Spec-side description of the returned list: the successful
outcomes, each paired with the file at its original input index, in
input-index order, failed jobs absent. -/
def successesInInputOrder (fileContents : List FileContent) (now : String)
    (results : List BatchResult) : List AnalysisResult :=
  results.enum.filterMap (fun p =>
    match p.2.status, p.2.result with
    | JobStatus.completed, some resp =>
        some ⟨filePathAt fileContents p.1, resp.scores, now⟩
    | _, _ => none)

lemma processResults_eq_spec (fc : List FileContent) (now : String) :
    ∀ rs i, (processResults fc now i rs).1 =
      (rs.enumFrom i).filterMap (fun p =>
        match p.2.status, p.2.result with
        | JobStatus.completed, some resp =>
            some (⟨filePathAt fc p.1, resp.scores, now⟩ : AnalysisResult)
        | _, _ => none) := by
  intro rs
  induction rs with
  | nil => intro i; simp [processResults]
  | cons r rest ih =>
      intro i
      rcases r with ⟨idx, status, result, error⟩
      cases status <;> cases result <;>
        simp [processResults, List.enumFrom, ih (i + 1)]

/-- C8: in a run whose final outcomes contain no fatal failure, the
batch call returns exactly the successful results in original
input-index order, failed jobs absent, so the returned list can be
shorter than the number of submitted jobs. -/
theorem analyzeFilesBatch_success_order (files : List String)
    (options : AnalysisOptions) (readBatch : List String → List FileContent)
    (finalProgress : BatchProgress) (now : String)
    (hne : files ≠ []) (hfc : readBatch files ≠ [])
    (hfound : (checkForRequestEndingError finalProgress.failed
        finalProgress.results).found = false) :
    (analyzeFilesBatch files options readBatch finalProgress now).outcome =
      Except.ok (successesInInputOrder (readBatch files) now finalProgress.results) ∧
    (successesInInputOrder (readBatch files) now finalProgress.results).length ≤
      finalProgress.results.length := by
  constructor
  · have hs := processResults_eq_spec (readBatch files) now finalProgress.results 0
    have : successesInInputOrder (readBatch files) now finalProgress.results =
        (processResults (readBatch files) now 0 finalProgress.results).1 := by
      rw [hs]
      rfl
    rw [this]
    simp [analyzeFilesBatch, hne, hfc, hfound]
  · have hlen : (successesInInputOrder (readBatch files) now
        finalProgress.results).length ≤ finalProgress.results.enum.length :=
      List.length_filterMap_le _ _
    simpa [List.enum_length] using hlen

/-- Closed instantiation of the C8 theorem: two submitted jobs, the
second fails with an ordinary validation error; the returned list holds
only the first job, in input order. -/
theorem analyzeFilesBatch_success_order_witness :
    (analyzeFilesBatch ["a", "b"] ⟨"d", "g", none⟩
        (fun _ => [⟨"a", "xx"⟩, ⟨"b", "yy"⟩])
        ⟨2, 1, 1,
          [⟨0, JobStatus.completed, some ⟨⟨7⟩⟩, none⟩,
           ⟨1, JobStatus.failed, none,
             some ⟨"bad", some ErrorTypeV.validation_error, some 422, 1⟩⟩]⟩
        "t").outcome =
      Except.ok [⟨"a", ⟨7⟩, "t"⟩] := by
  have h := analyzeFilesBatch_success_order ["a", "b"] ⟨"d", "g", none⟩
    (fun _ => [⟨"a", "xx"⟩, ⟨"b", "yy"⟩])
    ⟨2, 1, 1,
      [⟨0, JobStatus.completed, some ⟨⟨7⟩⟩, none⟩,
       ⟨1, JobStatus.failed, none,
         some ⟨"bad", some ErrorTypeV.validation_error, some 422, 1⟩⟩]⟩
    "t" (List.cons_ne_nil _ _) (List.cons_ne_nil _ _) (by decide)
  rw [h.1]
  rfl

/-- Events observable during one batch run: a job settling, the
two-second monitor timer firing, and the batch promise resolving. -/
inductive RunEvent where
  | settle (index : Nat)
  | intervalTick
  | promiseResolved
deriving DecidableEq, Repr

/-- Whether analyzeFilesBatch runs checkForRequestEndingError in
response to a given event: the check lives in the setInterval callback
and after promise resolution; no handler is attached to individual job
settle events. -/
def fatalCheckRuns : RunEvent → Bool
  | RunEvent.settle _ => false
  | RunEvent.intervalTick => true
  | RunEvent.promiseResolved => true

/-- The wall-clock period, in milliseconds, of the progress monitor
interval in analyzeFilesBatch. -/
def progressIntervalMs : Nat := 2000

/-- The setInterval callback of analyzeFilesBatch: runs the fatal check
against the current progress, requests cancellation when it reports
found, and logs a progress line once any job has settled. -/
def intervalTickCallback (progress : BatchProgress) : Bool × List LogEvent :=
  ((checkForRequestEndingError progress.failed progress.results).found,
    if 0 < progress.completed || 0 < progress.failed then
      [LogEvent.info ("Batch progress: " ++ toString progress.completed ++ "/" ++
        toString progress.total ++ " completed, " ++ toString progress.failed ++
        " failed")]
    else [])

/-- C4 counterexample: a settle event triggers no progress check in
analyzeFilesBatch; contrary to the claim, the check is not run at every
settle point. -/
theorem settle_event_runs_no_check : fatalCheckRuns (RunEvent.settle 0) = false := rfl

/-- C4 amended: the progress check calling checkForRequestEndingError
runs on every two-second interval tick (where a found fatal error
requests cancellation of the batch) and once on promise resolution
against the final progress, but not after individual settle events. -/
theorem fatal_check_schedule :
    (∀ progress : BatchProgress,
      (intervalTickCallback progress).1 =
        (checkForRequestEndingError progress.failed progress.results).found) ∧
    fatalCheckRuns RunEvent.intervalTick = true ∧
    fatalCheckRuns RunEvent.promiseResolved = true ∧
    progressIntervalMs = 2000 ∧
    (∀ i, fatalCheckRuns (RunEvent.settle i) = false) :=
  ⟨fun _ => rfl, rfl, rfl, rfl, fun _ => rfl⟩

/-- Observable outcome of one analyzeFiles run: the final result and
the trace of external calls in execution order. -/
structure FilesRun where
  outcome : Except ApiErrorV (List AnalysisResult)
  trace : List CallEvent

/-- The sequential small-batch loop of analyzeFiles: reads and analyzes
one file at a time, in input order, the read and the analysis of one
file completing before the next file starts. A file with missing or
empty content is skipped, an ordinary analysis failure is omitted, a
request-ending failure aborts the loop and propagates. -/
def analyzeFilesSeq (options : AnalysisOptions)
    (styleCheck : StyleAnalysisReq → Except ApiErrorV StyleCheckResp)
    (readFileContent : String → Option String) (now : String) :
    List String → FilesRun
  | [] => ⟨Except.ok [], []⟩
  | f :: rest =>
      match readFileContent f with
      | none =>
          ⟨(analyzeFilesSeq options styleCheck readFileContent now rest).outcome,
            CallEvent.readFile f ::
              (analyzeFilesSeq options styleCheck readFileContent now rest).trace⟩
      | some content =>
          if content = "" then
            ⟨(analyzeFilesSeq options styleCheck readFileContent now rest).outcome,
              CallEvent.readFile f ::
                (analyzeFilesSeq options styleCheck readFileContent now rest).trace⟩
          else
            match analyzeFile f content options styleCheck now with
            | Except.error e =>
                ⟨Except.error e, [CallEvent.readFile f, CallEvent.singleCheck f]⟩
            | Except.ok none =>
                ⟨(analyzeFilesSeq options styleCheck readFileContent now rest).outcome,
                  CallEvent.readFile f :: CallEvent.singleCheck f ::
                    (analyzeFilesSeq options styleCheck readFileContent now rest).trace⟩
            | Except.ok (some res) =>
                ⟨(analyzeFilesSeq options styleCheck readFileContent now
                    rest).outcome.map (fun l => res :: l),
                  CallEvent.readFile f :: CallEvent.singleCheck f ::
                    (analyzeFilesSeq options styleCheck readFileContent now rest).trace⟩

/-- Embedding of analyzeFiles from src/services/api-service.ts:
sequential processing for at most three files, batch processing
otherwise. -/
def analyzeFiles (files : List String) (options : AnalysisOptions)
    (styleCheck : StyleAnalysisReq → Except ApiErrorV StyleCheckResp)
    (readFileContent : String → Option String)
    (readBatch : List String → List FileContent)
    (finalProgress : BatchProgress) (now : String) : FilesRun :=
  if files.length ≤ 3 then
    analyzeFilesSeq options styleCheck readFileContent now files
  else
    ⟨(analyzeFilesBatch files options readBatch finalProgress now).outcome,
      (analyzeFilesBatch files options readBatch finalProgress now).trace⟩

/-- Call events belonging to the batch path: the processFileReading
phase and a styleBatchCheckRequests dispatch. -/
def isBatchEvent : CallEvent → Bool
  | CallEvent.readPhase _ => true
  | CallEvent.batchCall _ => true
  | _ => false

lemma analyzeFilesSeq_no_batch_event (options : AnalysisOptions)
    (styleCheck : StyleAnalysisReq → Except ApiErrorV StyleCheckResp)
    (readFileContent : String → Option String) (now : String) :
    ∀ files,
      ∀ e ∈ (analyzeFilesSeq options styleCheck readFileContent now files).trace,
        isBatchEvent e = false := by
  intro files
  induction files with
  | nil => intro e he; simp [analyzeFilesSeq] at he
  | cons f rest ih =>
      intro e he
      cases hr : readFileContent f with
      | none =>
          simp only [analyzeFilesSeq, hr] at he
          rcases List.mem_cons.mp he with rfl | hmem
          · rfl
          · exact ih e hmem
      | some content =>
          simp only [analyzeFilesSeq, hr] at he
          by_cases hc : content = ""
          · rw [if_pos hc] at he
            rcases List.mem_cons.mp he with rfl | hmem
            · rfl
            · exact ih e hmem
          · rw [if_neg hc] at he
            cases ha : analyzeFile f content options styleCheck now with
            | error err =>
                simp only [ha] at he
                rcases List.mem_cons.mp he with rfl | hmem
                · rfl
                · rcases List.mem_cons.mp hmem with rfl | hmem2
                  · rfl
                  · simp at hmem2
            | ok o =>
                cases o with
                | none =>
                    simp only [ha] at he
                    rcases List.mem_cons.mp he with rfl | hmem
                    · rfl
                    · rcases List.mem_cons.mp hmem with rfl | hmem2
                      · rfl
                      · exact ih e hmem2
                | some res =>
                    simp only [ha] at he
                    rcases List.mem_cons.mp he with rfl | hmem
                    · rfl
                    · rcases List.mem_cons.mp hmem with rfl | hmem2
                      · rfl
                      · exact ih e hmem2

/-- C10: with at most three files analyzeFiles runs the strictly
sequential per-file path: the run equals the sequential loop, whose
trace (one read followed by one analysis per file, in input order)
contains no read-phase or batch-dispatch event; with four or more files
the batch path is taken. -/
theorem analyzeFiles_dispatch (files : List String) (options : AnalysisOptions)
    (styleCheck : StyleAnalysisReq → Except ApiErrorV StyleCheckResp)
    (readFileContent : String → Option String)
    (readBatch : List String → List FileContent)
    (finalProgress : BatchProgress) (now : String) :
    (files.length ≤ 3 →
      analyzeFiles files options styleCheck readFileContent readBatch
          finalProgress now =
        analyzeFilesSeq options styleCheck readFileContent now files ∧
      ∀ e ∈ (analyzeFiles files options styleCheck readFileContent readBatch
          finalProgress now).trace, isBatchEvent e = false) ∧
    (4 ≤ files.length →
      analyzeFiles files options styleCheck readFileContent readBatch
          finalProgress now =
        ⟨(analyzeFilesBatch files options readBatch finalProgress now).outcome,
          (analyzeFilesBatch files options readBatch finalProgress now).trace⟩) := by
  constructor
  · intro h
    have heq : analyzeFiles files options styleCheck readFileContent readBatch
        finalProgress now =
        analyzeFilesSeq options styleCheck readFileContent now files := by
      unfold analyzeFiles
      rw [if_pos h]
    refine ⟨heq, ?_⟩
    rw [heq]
    exact analyzeFilesSeq_no_batch_event options styleCheck readFileContent now files
  · intro h
    unfold analyzeFiles
    rw [if_neg (by omega)]

/-- Closed instantiation of the C10 theorem: two files are processed
sequentially, each read followed by its analysis before the next file
starts, with no batch event in the trace. -/
theorem analyzeFiles_dispatch_witness :
    analyzeFiles ["a", "b"] ⟨"d", "g", none⟩ (fun _ => Except.ok ⟨⟨7⟩⟩)
        (fun _ => some "x") (fun _ => []) ⟨0, 0, 0, []⟩ "t" =
      ⟨Except.ok [⟨"a", ⟨7⟩, "t"⟩, ⟨"b", ⟨7⟩, "t"⟩],
        [CallEvent.readFile "a", CallEvent.singleCheck "a",
         CallEvent.readFile "b", CallEvent.singleCheck "b"]⟩ := by
  have h := (analyzeFiles_dispatch ["a", "b"] ⟨"d", "g", none⟩
    (fun _ => Except.ok ⟨⟨7⟩⟩) (fun _ => some "x") (fun _ => [])
    ⟨0, 0, 0, []⟩ "t").1 (by decide)
  rw [h.1]
  rfl

end ContentGuardian
